import Mathlib

/-!
Shallow embedding of the query-shaping and summarization core of the
motofinai back-office application (apps/payments/views.py,
apps/core/mixins.py, apps/inventory/views.py), together with proofs of
the specification's claims about it.
-/

namespace Motofinai

/-! ### String helpers

Embeddings of the Python string primitives the views rely on:
`str.strip`, `str.lower`, and the ORM's case-insensitive substring
test `__icontains`. -/

/-- Python `str.strip()`: remove leading and trailing whitespace. -/
def pyStrip (s : String) : String :=
  ⟨((s.data.dropWhile Char.isWhitespace).reverse.dropWhile Char.isWhitespace).reverse⟩

/-- `preMatch n h` is true when the list `n` is an initial segment of `h`. -/
def preMatch : List Char → List Char → Bool
  | [], _ => true
  | _ :: _, [] => false
  | a :: as, b :: bs => a == b && preMatch as bs

/-- `subMatch h n` is true when `n` occurs contiguously inside `h`. -/
def subMatch (hay needle : List Char) : Bool :=
  if preMatch needle hay then true
  else
    match hay with
    | [] => false
    | _ :: bs => subMatch bs needle

/-- Django `field__icontains=needle`: case-insensitive substring test. -/
def icontains (hay needle : String) : Bool :=
  subMatch (hay.data.map Char.toLower) (needle.data.map Char.toLower)

/-! ### Calendar dates

Embedding of `datetime.date` and `calendar.monthrange` as used by
`get_chart_data`, including exact day-by-day subtraction so that
`now - timedelta(days=k)` is modelled faithfully. -/

/-- A calendar date (proleptic Gregorian), as `datetime.date`. -/
structure Date where
  year : Nat
  month : Nat
  day : Nat
deriving DecidableEq, Repr

/-- Gregorian leap-year rule, as used by Python's `calendar` module. -/
def isLeap (y : Nat) : Bool :=
  (y % 4 == 0 && y % 100 != 0) || (y % 400 == 0)

/-- `calendar.monthrange(y, m).1`: the number of days in month `m` of year `y`. -/
def monthLength (y m : Nat) : Nat :=
  if m = 2 then (if isLeap y then 29 else 28)
  else if m = 4 ∨ m = 6 ∨ m = 9 ∨ m = 11 then 30
  else 31

/-- The calendar day immediately before `d`. -/
def subDay (d : Date) : Date :=
  if 1 < d.day then ⟨d.year, d.month, d.day - 1⟩
  else if 1 < d.month then ⟨d.year, d.month - 1, monthLength d.year (d.month - 1)⟩
  else ⟨d.year - 1, 12, 31⟩

/-- Python date subtraction of `n` whole days, by iterated single-day steps. -/
def subDays (d : Date) : Nat → Date
  | 0 => d
  | n + 1 => subDays (subDay d) n

/-- Strict lexicographic order on dates (year, then month, then day). -/
def dateLt (a b : Date) : Bool :=
  if a.year ≠ b.year then decide (a.year < b.year)
  else if a.month ≠ b.month then decide (a.month < b.month)
  else decide (a.day < b.day)

/-! ### Payment-schedule data model

`PaymentSchedule` rows as seen by the payments views: a status enum, a
money amount, a due date, an instalment sequence number, and the related
loan application (with its related motor), either of which may be
missing. -/

/-- `PaymentSchedule.Status`: DUE, OVERDUE or PAID. -/
inductive Status
  | due
  | overdue
  | paid
deriving DecidableEq, Repr

/-- The related `Motor`, reduced to the field the views read. -/
structure MotorRef where
  display_name : String
deriving DecidableEq, Repr

/-- The related `LoanApplication`, reduced to the fields the views read. -/
structure LoanApp where
  applicant_first_name : String
  applicant_last_name : String
  applicant_email : String
  motor : Option MotorRef
deriving DecidableEq, Repr

/-- A `PaymentSchedule` row. -/
structure Sched where
  id : Nat
  loan_application : Option LoanApp
  sequence : Nat
  due_date : Date
  total_amount : ℚ
  status : Status
deriving DecidableEq, Repr

/-- Modelled from the spec: `PaymentSchedule.objects.mark_overdue(reference_date)`
(the manager method lives in the models module, which is not part of the
sources; only its callers are). Per §4.2 of the spec, a record with status
DUE whose `due_date` is strictly before the reference date transitions to
OVERDUE; all other records are untouched. Per-record step. -/
def mark_overdue_one (ref : Date) (s : Sched) : Sched :=
  if s.status = .due ∧ dateLt s.due_date ref then { s with status := .overdue } else s

/-- Modelled from the spec: the whole-table effect of `mark_overdue`. -/
def mark_overdue (ref : Date) (rs : List Sched) : List Sched :=
  rs.map (mark_overdue_one ref)

/-! ### Decimal rounding

`Decimal.quantize(Decimal("0.01"))` under the default context rounds to
the nearest multiple of 0.01 with ties going to the even hundredth
(ROUND_HALF_EVEN). -/

/-- Round a rational to the nearest integer, ties to even. -/
def roundHalfEven (y : ℚ) : ℤ :=
  if y - (⌊y⌋ : ℚ) < 1 / 2 then ⌊y⌋
  else if 1 / 2 < y - (⌊y⌋ : ℚ) then ⌊y⌋ + 1
  else if Int.emod ⌊y⌋ 2 = 0 then ⌊y⌋ else ⌊y⌋ + 1

/-- `x.quantize(Decimal("0.01"))`: round to 2 decimal places, ties to even. -/
def quantize2 (x : ℚ) : ℚ :=
  (roundHalfEven (100 * x) : ℚ) / 100

/-! ### Summary aggregation (`PaymentScheduleListView.get_summary`) -/

/-- Sum of `total_amount` over the records with the given status
(the `Sum(..., filter=Q(status=...)) or Decimal("0.00")` aggregate). -/
def sumAmt (rs : List Sched) (st : Status) : ℚ :=
  ((rs.filter fun r => decide (r.status = st)).map Sched.total_amount).sum

/-- Count of records with the given status. -/
def countSt (rs : List Sched) (st : Status) : Nat :=
  (rs.filter fun r => decide (r.status = st)).length

/-- The dictionary returned by `get_summary`. -/
structure Summary where
  due_total : ℚ
  overdue_total : ℚ
  paid_total : ℚ
  due_count : Nat
  overdue_count : Nat
  paid_count : Nat
  collection_rate : ℚ
  pending_amount : ℚ
  total_collected : ℚ
deriving DecidableEq, Repr

/-- `PaymentScheduleListView.get_summary`: per-status totals and counts,
collection rate (guarded against a zero denominator), pending amount and
total collected. -/
def get_summary (rs : List Sched) : Summary :=
  let due_total := sumAmt rs .due
  let overdue_total := sumAmt rs .overdue
  let paid_total := sumAmt rs .paid
  let denominator := due_total + overdue_total + paid_total
  { due_total := due_total
    overdue_total := overdue_total
    paid_total := paid_total
    due_count := countSt rs .due
    overdue_count := countSt rs .overdue
    paid_count := countSt rs .paid
    collection_rate :=
      if 0 < denominator then quantize2 (paid_total / denominator * 100) else 0
    pending_amount := due_total + overdue_total
    total_collected := paid_total }

/-! ### Chart buckets (`PaymentScheduleListView.get_chart_data`)

For `i = 5, 4, ..., 0` the view computes
`month_date = now - timedelta(days=30*i)` and then snaps to
`month_date.replace(day=1)` and `month_date.replace(day=monthrange(...))`.
Only the bucket boundaries are modelled; the per-bucket aggregation reads
the same snapped window. -/

/-- The six `month_date` anchors, oldest first (`for i in range(5, -1, -1)`). -/
def chartMonthDates (now : Date) : List Date :=
  (List.range 6).map fun j => subDays now (30 * (5 - j))

/-- The six chart buckets as (month_start, month_end) pairs, oldest first. -/
def get_chart_buckets (now : Date) : List (Date × Date) :=
  (chartMonthDates now).map fun d =>
    (⟨d.year, d.month, 1⟩, ⟨d.year, d.month, monthLength d.year d.month⟩)

/-- The (year, month) labels of the six buckets, oldest first. -/
def chartMonths (now : Date) : List (Nat × Nat) :=
  (chartMonthDates now).map fun d => (d.year, d.month)

/-- The calendar month immediately after a (year, month) pair. -/
def nextMonth (ym : Nat × Nat) : Nat × Nat :=
  if ym.2 = 12 then (ym.1 + 1, 1) else (ym.1, ym.2 + 1)

/-- Six trailing calendar months are consecutive: each label is the
successor month of the previous one. -/
def consecutiveMonths : List (Nat × Nat) → Bool
  | [] => true
  | [_] => true
  | a :: b :: rest => decide (b = nextMonth a) && consecutiveMonths (b :: rest)

/-! ### Search/sort mixin (`SearchSortFilterMixin`)

The mixin is generic over the model; a row is modelled as an association
list from field names to values — string-valued for the searchable
fields, integer-valued for the sortable ones. -/

/-- A row as seen by `apply_search`: named text fields. -/
def SRec := List (String × String)
deriving DecidableEq

/-- Attribute lookup on a text row; an absent field reads as empty. -/
def getattrS (r : SRec) (f : String) : String :=
  (r.lookup f).getD ""

/-- `SearchSortFilterMixin.apply_search`: when the stripped query and the
configured `search_fields` are both non-empty, keep a row iff some
configured field case-insensitively contains the query. -/
def apply_search (search_fields : List String) (q : String) (rs : List SRec) : List SRec :=
  if pyStrip q ≠ "" ∧ search_fields ≠ [] then
    rs.filter fun r => search_fields.any fun f => icontains (getattrS r f) (pyStrip q)
  else rs

/-- A row as seen by `apply_sorting`: named sortable attributes. -/
def NRec := List (String × Int)
deriving DecidableEq

/-- Attribute lookup on a sortable row; an absent field reads as 0. -/
def attrOf (r : NRec) (f : String) : Int :=
  (r.lookup f).getD 0

/-- Split a Django `order_by` argument into its direction (a leading `-`
means descending) and the underlying field name. -/
def parseOrder (f : String) : Bool × String :=
  match f.data with
  | '-' :: rest => (true, ⟨rest⟩)
  | _ => (false, f)

/-- The Boolean comparison `order_by(f)` sorts with. -/
def orderLe (f : String) (a b : NRec) : Bool :=
  let p := parseOrder f
  if p.1 then decide (attrOf b p.2 ≤ attrOf a p.2)
  else decide (attrOf a p.2 ≤ attrOf b p.2)

/-- `queryset.order_by(f)`: sort by the named attribute, descending when
the argument begins with `-`. -/
def order_by (f : String) (rs : List NRec) : List NRec :=
  rs.mergeSort (orderLe f)

/-- `SearchSortFilterMixin.apply_sorting`: a recognised sort key orders by
its configured underlying field (negated when `order == "desc"`); any
other key falls back to the configured default ordering when one is set. -/
def apply_sorting (sort_fields : List (String × String)) (default_sort : String)
    (sort_by order : String) (rs : List NRec) : List NRec :=
  match sort_fields.lookup sort_by with
  | some f => order_by (if order = "desc" then "-" ++ f else f) rs
  | none => if default_sort ≠ "" then order_by default_sort rs else rs

/-- The ordering relation named by a Django `order_by` argument. -/
def orderRel (f : String) (a b : NRec) : Prop :=
  orderLe f a b = true

/-! ### Motor approval workflow
(`MotorApproveView.post`, `MotorRejectView.post`) -/

/-- `Motor.ApprovalStatus`: PENDING, APPROVED or REJECTED. -/
inductive ApprovalStatus
  | pending
  | approved
  | rejected
deriving DecidableEq, Repr

/-- A `Motor` row, reduced to the state the approval views touch. -/
structure Motor where
  approval_status : ApprovalStatus
  approved_by : Option String
  approval_notes : String
  display_name : String
deriving DecidableEq, Repr

/-- The failure modes of the model-level transition methods. -/
inductive WorkflowError
  | invalidTransition
  | validationFailed
deriving DecidableEq, Repr

/-- Modelled from the spec: `Motor.approve(approved_by, notes)` (the model
method lives in the models module, which is not part of the sources).
Per §4.4 of the spec it is valid only from PENDING, fails with
InvalidTransition otherwise, and records the actor and notes while
transitioning to APPROVED. -/
def Motor.approve (m : Motor) (actor notes : String) : Except WorkflowError Motor :=
  if m.approval_status ≠ .pending then .error .invalidTransition
  else .ok { m with
    approval_status := .approved
    approved_by := some actor
    approval_notes := notes }

/-- Modelled from the spec: `Motor.reject(approved_by, notes)`. Valid only
from PENDING (InvalidTransition otherwise); fails with ValidationError
when the notes are empty or whitespace; records the actor and notes while
transitioning to REJECTED. -/
def Motor.reject (m : Motor) (actor notes : String) : Except WorkflowError Motor :=
  if m.approval_status ≠ .pending then .error .invalidTransition
  else if pyStrip notes = "" then .error .validationFailed
  else .ok { m with
    approval_status := .rejected
    approved_by := some actor
    approval_notes := notes }

/-- A flash message queued on the request (`django.contrib.messages`). -/
inductive Flash
  | success (msg : String)
  | warning (msg : String)
  | errorMsg (msg : String)
deriving DecidableEq, Repr

/-- The observable outcome of an approval-view POST: the motor's state
after the request and the flash message shown to the user. Both views
always redirect, so reaching a `ViewResult` at all means no fault
escaped. -/
structure ViewResult where
  motor : Motor
  flash : Flash
deriving DecidableEq, Repr

/-- `MotorApproveView.post`: guard on PENDING, strip the posted notes,
delegate to `Motor.approve`, catch `ValidationError`. -/
def motor_approve_post (m : Motor) (actor raw_notes : String) : ViewResult :=
  if m.approval_status ≠ .pending then
    ⟨m, .errorMsg "Only pending motors can be approved."⟩
  else
    let notes := pyStrip raw_notes
    match m.approve actor notes with
    | .ok m' =>
        ⟨m', .success ("Motorcycle '" ++ m.display_name ++ "' has been approved.")⟩
    | .error _ => ⟨m, .errorMsg "Error approving motorcycle."⟩

/-- `MotorRejectView.post`: guard on PENDING, strip the posted notes,
refuse empty notes, delegate to `Motor.reject`, catch `ValidationError`. -/
def motor_reject_post (m : Motor) (actor raw_notes : String) : ViewResult :=
  if m.approval_status ≠ .pending then
    ⟨m, .errorMsg "Only pending motors can be rejected."⟩
  else
    let notes := pyStrip raw_notes
    if notes = "" then
      ⟨m, .errorMsg "Please provide a reason for rejection."⟩
    else
      match m.reject actor notes with
      | .ok m' =>
          ⟨m', .warning ("Motorcycle '" ++ m.display_name ++ "' has been rejected.")⟩
      | .error _ => ⟨m, .errorMsg "Error rejecting motorcycle."⟩

/-! ### JSON search endpoint (`PaymentScheduleSearchView.get`) -/

/-- The string values of `PaymentSchedule.Status.choices` accepted by the
`status` query parameter. -/
def parseStatus (s : String) : Option Status :=
  if s = "due" then some .due
  else if s = "overdue" then some .overdue
  else if s = "paid" then some .paid
  else none

/-- The `icontains` OR-filter over the applicant's first name, last name
and email; a schedule with no related loan application matches nothing. -/
def matchCustomer (q : String) (s : Sched) : Bool :=
  match s.loan_application with
  | none => false
  | some la =>
      icontains la.applicant_first_name q || icontains la.applicant_last_name q ||
        icontains la.applicant_email q

/-- `order_by("due_date", "sequence")` comparison. -/
def schedLe (a b : Sched) : Bool :=
  if a.due_date = b.due_date then decide (a.sequence ≤ b.sequence)
  else dateLt a.due_date b.due_date

/-- Zero-pad a numeral string for `f"SCH-{id:06d}"`. -/
def pad6 (n : Nat) : String :=
  let s := toString n
  ⟨List.replicate (6 - s.length) '0'⟩ ++ s

/-- Two-digit zero padding for `strftime("%Y-%m-%d")`. -/
def pad2 (n : Nat) : String :=
  if n < 10 then "0" ++ toString n else toString n

/-- `due_date.strftime("%Y-%m-%d")`. -/
def isoDate (d : Date) : String :=
  toString d.year ++ "-" ++ pad2 d.month ++ "-" ++ pad2 d.day

/-- One JSON result row of the search endpoint. The `amount` field is the
numeric value carried by `str(schedule.total_amount)`. -/
structure SearchRow where
  id : Nat
  schedule_id : String
  customer : String
  email : String
  motor : String
  due_date : String
  amount : ℚ
  status : Status
deriving DecidableEq, Repr

/-- Build one result row. Reading through a missing related loan
application or motor raises `AttributeError`/`TypeError` in the source,
which the row loop catches and skips; here that is `none`. -/
def buildRow (s : Sched) : Option SearchRow :=
  match s.loan_application with
  | none => none
  | some la =>
      match la.motor with
      | none => none
      | some mo =>
          some
            { id := s.id
              schedule_id := "SCH-" ++ pad6 s.id
              customer := la.applicant_first_name ++ " " ++ la.applicant_last_name
              email := la.applicant_email
              motor := mo.display_name
              due_date := isoDate s.due_date
              amount := s.total_amount
              status := s.status }

/-- The filtered, ordered schedule set the endpoint iterates over:
mark overdue, order by (due_date, sequence), then the optional customer
and status filters. -/
def searchSchedules (db : List Sched) (customer status_q : String) (ref : Date) :
    List Sched :=
  let marked := mark_overdue ref db
  let ordered := marked.mergeSort schedLe
  let byCustomer :=
    if pyStrip customer ≠ "" then ordered.filter (matchCustomer (pyStrip customer))
    else ordered
  match parseStatus (pyStrip status_q) with
  | some st => byCustomer.filter fun s => decide (s.status = st)
  | none => byCustomer

/-- The JSON body and HTTP status of a search response. -/
structure SearchResponse where
  status_code : Nat
  error : Option String
  results : List SearchRow
  count : Nat
deriving DecidableEq, Repr

/-- `PaymentScheduleSearchView.get`: the whole handler body runs inside a
`try`; an exception anywhere in it (modelled as the `Except.error` case of
the fetched data) is converted into an HTTP 400 payload. On success the
first 50 schedules are serialised, skipping rows whose related records
are missing. -/
def searchGet (fetch : Except String (List Sched)) (customer status_q : String)
    (ref : Date) : SearchResponse :=
  match fetch with
  | .error e => ⟨400, some e, [], 0⟩
  | .ok db =>
      let rows := ((searchSchedules db customer status_q ref).take 50).filterMap buildRow
      ⟨200, none, rows, rows.length⟩

/-! ### Concrete sample data used by witness theorems -/

/-- A reference date for the overdue refresh. -/
def refDate : Date := ⟨2024, 2, 1⟩

/-- Sample schedules: amounts 100 (PAID), 50 (DUE, future), 50 (DUE but
past due, so OVERDUE after the refresh). -/
def schedPaid : Sched := ⟨1, none, 1, ⟨2024, 1, 5⟩, 100, .paid⟩

/-- A schedule still due in the future. -/
def schedDue : Sched := ⟨2, none, 2, ⟨2024, 3, 1⟩, 50, .due⟩

/-- A schedule past its due date. -/
def schedLate : Sched := ⟨3, none, 3, ⟨2024, 1, 10⟩, 50, .due⟩

/-- Sample sortable rows with prices 10, 30, 20. -/
def sampleRows : List NRec := [[("purchase_price", 10)], [("purchase_price", 30)], [("purchase_price", 20)]]

/-- Sample searchable rows. -/
def sampleRecs : List SRec := [[("name", "Honda Wave")], [("name", "Yamaha")]]

/-- A motor awaiting approval. -/
def pendingMotor : Motor := ⟨.pending, none, "", "Honda Wave"⟩

/-- A motor already approved. -/
def approvedMotor : Motor := ⟨.approved, some "alice", "ok", "Honda Wave"⟩

/-! ## Helper lemmas -/

theorem get_summary_due (rs : List Sched) : (get_summary rs).due_total = sumAmt rs .due := rfl

theorem get_summary_overdue (rs : List Sched) :
    (get_summary rs).overdue_total = sumAmt rs .overdue := rfl

theorem get_summary_paid (rs : List Sched) : (get_summary rs).paid_total = sumAmt rs .paid := rfl

theorem get_summary_rate (rs : List Sched) :
    (get_summary rs).collection_rate =
      if 0 < sumAmt rs .due + sumAmt rs .overdue + sumAmt rs .paid then
        quantize2 (sumAmt rs .paid / (sumAmt rs .due + sumAmt rs .overdue + sumAmt rs .paid) * 100)
      else 0 := rfl

theorem sumAmt_nonneg (rs : List Sched) (st : Status) (h : ∀ r ∈ rs, 0 ≤ r.total_amount) :
    0 ≤ sumAmt rs st := by
  apply List.sum_nonneg
  intro x hx
  simp only [List.mem_map, List.mem_filter] at hx
  obtain ⟨r, ⟨hr, _⟩, rfl⟩ := hx
  exact h r hr

theorem sumAmt_partition (l : List Sched) :
    sumAmt l .due + sumAmt l .overdue + sumAmt l .paid = (l.map Sched.total_amount).sum := by
  induction l with
  | nil => simp [sumAmt]
  | cons r t ih =>
      cases hs : r.status <;>
        simp only [sumAmt, List.filter_cons, hs, decide_eq_true_eq, List.map_cons,
          List.sum_cons, reduceCtorEq, decide_True, decide_False, if_true, if_false,
          reduceIte] at ih ⊢ <;>
        linarith [ih]

theorem sumAmt_eq_zero {rs : List Sched} {st : Status} (h : ∀ r ∈ rs, r.status ≠ st) :
    sumAmt rs st = 0 := by
  unfold sumAmt
  have hnil : rs.filter (fun r => decide (r.status = st)) = [] := by
    rw [List.filter_eq_nil_iff]
    intro a ha
    simpa using h a ha
  rw [hnil]
  simp

theorem roundHalfEven_nonneg {y : ℚ} (hy : 0 ≤ y) : 0 ≤ roundHalfEven y := by
  unfold roundHalfEven
  have hf : (0 : ℤ) ≤ ⌊y⌋ := Int.floor_nonneg.mpr hy
  split_ifs <;> omega

theorem roundHalfEven_le {y : ℚ} {n : ℤ} (hy : y ≤ (n : ℚ)) : roundHalfEven y ≤ n := by
  unfold roundHalfEven
  have hf : ⌊y⌋ ≤ n := by
    have h := Int.floor_le_floor hy
    rwa [Int.floor_intCast] at h
  have hstep : ¬(y - (⌊y⌋ : ℚ) < 1 / 2) → ⌊y⌋ + 1 ≤ n := by
    intro h1
    have hr : (1 : ℚ) / 2 ≤ y - (⌊y⌋ : ℚ) := le_of_not_lt h1
    have hfl : (⌊y⌋ : ℚ) ≤ y := Int.floor_le y
    have hlt : ((⌊y⌋ : ℚ)) < (n : ℚ) := by linarith
    have h2 : ⌊y⌋ < n := by exact_mod_cast hlt
    omega
  split_ifs with h1 h2 h3
  · exact hf
  · exact hstep h1
  · exact hf
  · exact hstep h1

theorem quantize2_nonneg {x : ℚ} (hx : 0 ≤ x) : 0 ≤ quantize2 x := by
  unfold quantize2
  have h := roundHalfEven_nonneg (show (0 : ℚ) ≤ 100 * x by linarith)
  have h' : (0 : ℚ) ≤ (roundHalfEven (100 * x) : ℚ) := by exact_mod_cast h
  exact div_nonneg h' (by norm_num)

theorem quantize2_le_hundred {x : ℚ} (hx : x ≤ 100) : quantize2 x ≤ 100 := by
  unfold quantize2
  have h : roundHalfEven (100 * x) ≤ (10000 : ℤ) := by
    apply roundHalfEven_le
    push_cast
    linarith
  have h' : ((roundHalfEven (100 * x) : ℚ)) ≤ 10000 := by exact_mod_cast h
  rw [div_le_iff₀ (by norm_num : (0 : ℚ) < 100)]
  linarith

theorem mark_overdue_one_idem (ref : Date) (s : Sched) :
    mark_overdue_one ref (mark_overdue_one ref s) = mark_overdue_one ref s := by
  unfold mark_overdue_one
  by_cases h : s.status = .due ∧ dateLt s.due_date ref
  · simp [h]
  · simp [h]

/-! ## Claim theorems -/

set_option maxRecDepth 8000

/-- C2: the chart's six buckets are anchored by `now - timedelta(days=30*i)`
rather than true calendar-month arithmetic. At `now = 2024-03-01` the
anchors land in October, November, December, January, January and March:
January is duplicated and February is skipped, so the bucket months are
not six consecutive calendar months, contradicting the contract. The
bucket boundaries themselves are the (correctly snapped) first and last
days of those anchor months. -/
theorem chart_thirty_day_offset_bug :
    chartMonths ⟨2024, 3, 1⟩ =
      [(2023, 10), (2023, 11), (2023, 12), (2024, 1), (2024, 1), (2024, 3)] ∧
    consecutiveMonths (chartMonths ⟨2024, 3, 1⟩) = false ∧
    get_chart_buckets ⟨2024, 3, 1⟩ =
      [(⟨2023, 10, 1⟩, ⟨2023, 10, 31⟩), (⟨2023, 11, 1⟩, ⟨2023, 11, 30⟩),
       (⟨2023, 12, 1⟩, ⟨2023, 12, 31⟩), (⟨2024, 1, 1⟩, ⟨2024, 1, 31⟩),
       (⟨2024, 1, 1⟩, ⟨2024, 1, 31⟩), (⟨2024, 3, 1⟩, ⟨2024, 3, 31⟩)] := by
  decide

/-- C5: over any status-refreshed schedule set, the summary's three
per-status totals add up to the sum of all amounts in the set, and each
per-status total is 0 when no record carries that status. -/
theorem summary_totals_spec (ref : Date) (rs : List Sched) :
    (get_summary (mark_overdue ref rs)).due_total
        + (get_summary (mark_overdue ref rs)).overdue_total
        + (get_summary (mark_overdue ref rs)).paid_total
      = ((mark_overdue ref rs).map Sched.total_amount).sum ∧
    ((∀ r ∈ mark_overdue ref rs, r.status ≠ .due) →
      (get_summary (mark_overdue ref rs)).due_total = 0) ∧
    ((∀ r ∈ mark_overdue ref rs, r.status ≠ .overdue) →
      (get_summary (mark_overdue ref rs)).overdue_total = 0) ∧
    ((∀ r ∈ mark_overdue ref rs, r.status ≠ .paid) →
      (get_summary (mark_overdue ref rs)).paid_total = 0) := by
  refine ⟨?_, ?_, ?_, ?_⟩
  · rw [get_summary_due, get_summary_overdue, get_summary_paid]
    exact sumAmt_partition (mark_overdue ref rs)
  · intro h
    rw [get_summary_due]
    exact sumAmt_eq_zero h
  · intro h
    rw [get_summary_overdue]
    exact sumAmt_eq_zero h
  · intro h
    rw [get_summary_paid]
    exact sumAmt_eq_zero h

/-- Witness for C5 at the sample set (100 PAID, 50 DUE, 50 late DUE):
the totals partition the amount sum, and on a set with no PAID records
the paid total is 0. -/
theorem summary_totals_witness :
    ((get_summary (mark_overdue refDate [schedPaid, schedDue, schedLate])).due_total
        + (get_summary (mark_overdue refDate [schedPaid, schedDue, schedLate])).overdue_total
        + (get_summary (mark_overdue refDate [schedPaid, schedDue, schedLate])).paid_total
      = ((mark_overdue refDate [schedPaid, schedDue, schedLate]).map Sched.total_amount).sum) ∧
    (get_summary (mark_overdue refDate [schedDue, schedLate])).paid_total = 0 :=
  ⟨(summary_totals_spec refDate [schedPaid, schedDue, schedLate]).1,
   (summary_totals_spec refDate [schedDue, schedLate]).2.2.2 (by decide)⟩

/-- C8: the overdue refresh is idempotent — re-running `mark_overdue`
with the same reference date is a no-op, so each record's status changes
at most once. -/
theorem mark_overdue_idempotent (ref : Date) (rs : List Sched) :
    mark_overdue ref (mark_overdue ref rs) = mark_overdue ref rs := by
  unfold mark_overdue
  rw [List.map_map]
  apply List.map_congr_left
  intro s _
  exact mark_overdue_one_idem ref s

/-- C9: when an unexpected exception occurs anywhere in the JSON search
endpoint's handler body, the response is HTTP 400 with body
`{"error": <message>, "results": [], "count": 0}`; the exception is
converted, never propagated. -/
theorem search_error_payload (e customer status_q : String) (ref : Date) :
    searchGet (.error e) customer status_q ref =
      ⟨400, some e, [], 0⟩ := rfl

/-- C10: on success the JSON search endpoint's `count` equals the length
of `results`, at most 50 rows are returned, and a row appears in the
results exactly when one of the first 50 matching schedules serialises to
it — schedules whose row construction fails (missing related loan
application or motor) are skipped and never counted. -/
theorem search_ok_spec (db : List Sched) (customer status_q : String) (ref : Date) :
    (searchGet (.ok db) customer status_q ref).count
      = (searchGet (.ok db) customer status_q ref).results.length ∧
    (searchGet (.ok db) customer status_q ref).results.length ≤ 50 ∧
    ∀ row, row ∈ (searchGet (.ok db) customer status_q ref).results ↔
      ∃ s ∈ (searchSchedules db customer status_q ref).take 50, buildRow s = some row := by
  refine ⟨rfl, ?_, ?_⟩
  · calc ((searchGet (.ok db) customer status_q ref).results).length
        ≤ ((searchSchedules db customer status_q ref).take 50).length :=
          List.length_filterMap_le _ _
      _ ≤ 50 := List.length_take_le _ _
  · intro row
    exact List.mem_filterMap

theorem parseOrder_neg_mk (f : String) : parseOrder ("-" ++ f) = (true, f) := by
  have hd : ("-" ++ f).data = '-' :: f.data := by
    rw [String.data_append]
    rfl
  unfold parseOrder
  rw [hd]
  exact rfl

theorem orderLe_total (g : String) (a b : NRec) : (orderLe g a b || orderLe g b a) = true := by
  unfold orderLe
  by_cases hd : (parseOrder g).1 <;> simp [hd] <;> exact le_total _ _

theorem orderLe_trans (g : String) (a b c : NRec) (hab : orderLe g a b = true)
    (hbc : orderLe g b c = true) : orderLe g a c = true := by
  unfold orderLe at hab hbc ⊢
  by_cases hd : (parseOrder g).1
  · simp only [hd, if_true, decide_eq_true_eq] at hab hbc ⊢
    exact le_trans hbc hab
  · simp only [hd, if_false, Bool.false_eq_true, decide_eq_true_eq] at hab hbc ⊢
    exact le_trans hab hbc

theorem order_by_sorted (g : String) (rs : List NRec) :
    (order_by g rs).Pairwise (orderRel g) :=
  List.sorted_mergeSort (fun a b c hab hbc => orderLe_trans g a b c hab hbc)
    (orderLe_total g) rs

/-- C1: the collection rate equals paid over (due+overdue+paid) times 100
rounded to 2 decimals when the denominator is positive, is 0.00 when the
denominator is 0 (the guarded branch — the division never runs with a
zero denominator), and always lies in [0, 100]. -/
theorem collection_rate_spec (rs : List Sched) (h : ∀ r ∈ rs, 0 ≤ r.total_amount) :
    ((get_summary rs).due_total + (get_summary rs).overdue_total
        + (get_summary rs).paid_total = 0 →
      (get_summary rs).collection_rate = 0) ∧
    (0 < (get_summary rs).due_total + (get_summary rs).overdue_total
        + (get_summary rs).paid_total →
      (get_summary rs).collection_rate =
        quantize2 ((get_summary rs).paid_total /
          ((get_summary rs).due_total + (get_summary rs).overdue_total +
            (get_summary rs).paid_total) * 100)) ∧
    0 ≤ (get_summary rs).collection_rate ∧ (get_summary rs).collection_rate ≤ 100 := by
  have hd := sumAmt_nonneg rs .due h
  have ho := sumAmt_nonneg rs .overdue h
  have hp := sumAmt_nonneg rs .paid h
  rw [get_summary_due, get_summary_overdue, get_summary_paid, get_summary_rate]
  refine ⟨?_, ?_, ?_, ?_⟩
  · intro h0
    have hne : ¬ 0 < sumAmt rs .due + sumAmt rs .overdue + sumAmt rs .paid := by
      rw [h0]
      exact lt_irrefl 0
    rw [if_neg hne]
  · intro hpos
    rw [if_pos hpos]
  · split_ifs with hpos
    · apply quantize2_nonneg
      have h1 : 0 ≤ sumAmt rs .paid / (sumAmt rs .due + sumAmt rs .overdue + sumAmt rs .paid) :=
        div_nonneg hp (le_of_lt hpos)
      exact mul_nonneg h1 (by norm_num)
    · exact le_refl 0
  · split_ifs with hpos
    · apply quantize2_le_hundred
      have h1 : sumAmt rs .paid / (sumAmt rs .due + sumAmt rs .overdue + sumAmt rs .paid) ≤ 1 :=
        div_le_one_of_le₀ (by linarith) (le_of_lt hpos)
      have h2 := mul_le_mul_of_nonneg_right h1 (by norm_num : (0 : ℚ) ≤ 100)
      simpa using h2
    · norm_num

/-- Witness for C1 at the empty schedule set: the denominator is 0, the
collection rate is 0.00 and stays within [0, 100]. -/
theorem collection_rate_witness :
    (get_summary ([] : List Sched)).collection_rate = 0 ∧
    0 ≤ (get_summary ([] : List Sched)).collection_rate ∧
    (get_summary ([] : List Sched)).collection_rate ≤ 100 :=
  ⟨(collection_rate_spec [] (by simp)).1
      (by simp [get_summary_due, get_summary_overdue, get_summary_paid, sumAmt]),
   (collection_rate_spec [] (by simp)).2.2⟩

/-- C3: approve and reject requests on a motor that is not PENDING leave
the motor unchanged and surface a user-visible error message (the views
always return a redirect, never a fault); approve succeeds only from
PENDING, recording the actor and the stripped notes and transitioning to
APPROVED. -/
theorem approval_guard_spec (m : Motor) (actor raw_notes : String) :
    (m.approval_status ≠ .pending →
      motor_approve_post m actor raw_notes =
        ⟨m, .errorMsg "Only pending motors can be approved."⟩ ∧
      motor_reject_post m actor raw_notes =
        ⟨m, .errorMsg "Only pending motors can be rejected."⟩) ∧
    (m.approval_status = .pending →
      motor_approve_post m actor raw_notes =
        ⟨{ m with
            approval_status := .approved
            approved_by := some actor
            approval_notes := pyStrip raw_notes },
          .success ("Motorcycle '" ++ m.display_name ++ "' has been approved.")⟩) := by
  constructor
  · intro hne
    constructor
    · unfold motor_approve_post
      rw [if_pos hne]
    · unfold motor_reject_post
      rw [if_pos hne]
  · intro hpe
    unfold motor_approve_post Motor.approve
    simp [hpe]

/-- Witness for C3: an already-approved motor is untouched by both views,
and a pending motor is approved with actor and stripped notes recorded. -/
theorem approval_guard_witness :
    (motor_approve_post approvedMotor "bob" "n" =
        ⟨approvedMotor, .errorMsg "Only pending motors can be approved."⟩ ∧
      motor_reject_post approvedMotor "bob" "n" =
        ⟨approvedMotor, .errorMsg "Only pending motors can be rejected."⟩) ∧
    motor_approve_post pendingMotor "bob" " ok " =
      ⟨{ pendingMotor with
          approval_status := .approved
          approved_by := some "bob"
          approval_notes := pyStrip " ok " },
        .success ("Motorcycle '" ++ pendingMotor.display_name ++ "' has been approved.")⟩ :=
  ⟨(approval_guard_spec approvedMotor "bob" "n").1 (by decide),
   (approval_guard_spec pendingMotor "bob" " ok ").2 (by decide)⟩

/-- C4: a reject request on a PENDING motor whose notes strip to empty is
refused as a validation error: the view leaves the status at PENDING and
the model-level `reject` fails with ValidationError rather than
transitioning to REJECTED. -/
theorem reject_empty_notes_spec (m : Motor) (actor raw_notes : String)
    (hpe : m.approval_status = .pending) (hn : pyStrip raw_notes = "") :
    motor_reject_post m actor raw_notes =
      ⟨m, .errorMsg "Please provide a reason for rejection."⟩ ∧
    (motor_reject_post m actor raw_notes).motor.approval_status = .pending ∧
    m.reject actor raw_notes = .error .validationFailed := by
  have hview : motor_reject_post m actor raw_notes =
      ⟨m, .errorMsg "Please provide a reason for rejection."⟩ := by
    unfold motor_reject_post
    rw [if_neg (by simp [hpe])]
    simp [hn]
  refine ⟨hview, ?_, ?_⟩
  · rw [hview]
    exact hpe
  · unfold Motor.reject
    rw [if_neg (by simp [hpe]), if_pos hn]

/-- Witness for C4: rejecting a pending motor with whitespace-only notes
is refused and the status stays PENDING. -/
theorem reject_empty_notes_witness :
    motor_reject_post pendingMotor "bob" "   " =
      ⟨pendingMotor, .errorMsg "Please provide a reason for rejection."⟩ ∧
    (motor_reject_post pendingMotor "bob" "   ").motor.approval_status = .pending ∧
    pendingMotor.reject "bob" "   " = .error .validationFailed :=
  reject_empty_notes_spec pendingMotor "bob" "   " (by decide) (by decide)

/-- C6: with a non-empty (stripped) search text and a non-empty configured
field list, the search output is a subset of the input, and a record is
kept exactly when at least one configured field case-insensitively
contains the text; the input list itself is untouched (the transformation
is pure). -/
theorem apply_search_spec (fields : List String) (q : String) (rs : List SRec)
    (hq : pyStrip q ≠ "") (hf : fields ≠ []) :
    (∀ r ∈ apply_search fields q rs, r ∈ rs) ∧
    (∀ r, r ∈ apply_search fields q rs ↔
      r ∈ rs ∧ (fields.any fun f => icontains (getattrS r f) (pyStrip q)) = true) := by
  unfold apply_search
  rw [if_pos ⟨hq, hf⟩]
  constructor
  · intro r hr
    exact List.mem_of_mem_filter hr
  · intro r
    exact List.mem_filter

/-- Witness for C6 at a concrete record set: searching "hon" over the
configured field "name". -/
theorem apply_search_witness :
    (∀ r ∈ apply_search ["name"] "hon" sampleRecs, r ∈ sampleRecs) ∧
    (∀ r, r ∈ apply_search ["name"] "hon" sampleRecs ↔
      r ∈ sampleRecs ∧ ((["name"].any fun f => icontains (getattrS r f) (pyStrip "hon"))) = true) :=
  apply_search_spec ["name"] "hon" sampleRecs (by decide) (by decide)

/-- C7: a recognised sort key orders the output by the configured
underlying attribute — ascending unless order="desc", descending exactly
then — and the output is a permutation of the input; an unrecognised key
is ignored and the output is ordered by the configured default ordering. -/
theorem apply_sorting_spec (sf : List (String × String)) (ds sb ord : String)
    (rs : List NRec) :
    (∀ f, sf.lookup sb = some f → parseOrder f = (false, f) →
      (apply_sorting sf ds sb ord rs).Perm rs ∧
      (ord = "desc" →
        (apply_sorting sf ds sb ord rs).Pairwise fun a b =>
          attrOf b f ≤ attrOf a f) ∧
      (ord ≠ "desc" →
        (apply_sorting sf ds sb ord rs).Pairwise fun a b =>
          attrOf a f ≤ attrOf b f)) ∧
    (sf.lookup sb = none → ds ≠ "" →
      (apply_sorting sf ds sb ord rs).Perm rs ∧
      (apply_sorting sf ds sb ord rs).Pairwise (orderRel ds)) := by
  constructor
  · intro f hf hp
    have happ : apply_sorting sf ds sb ord rs =
        order_by (if ord = "desc" then "-" ++ f else f) rs := by
      unfold apply_sorting
      rw [hf]
    refine ⟨?_, ?_, ?_⟩
    · rw [happ]
      exact List.mergeSort_perm rs _
    · intro hor
      rw [happ, if_pos hor]
      refine (order_by_sorted ("-" ++ f) rs).imp ?_
      intro a b hab
      unfold orderRel orderLe at hab
      rw [parseOrder_neg_mk] at hab
      simpa using hab
    · intro hor
      rw [happ, if_neg hor]
      refine (order_by_sorted f rs).imp ?_
      intro a b hab
      unfold orderRel orderLe at hab
      rw [hp] at hab
      simpa using hab
  · intro hnone hds
    have happ : apply_sorting sf ds sb ord rs = order_by ds rs := by
      unfold apply_sorting
      rw [hnone, if_pos hds]
    rw [happ]
    exact ⟨List.mergeSort_perm rs _, order_by_sorted ds rs⟩

/-- Witness for C7: sorting prices [10, 30, 20] descending by the "price"
key, and falling back to the default ordering on an unknown key. -/
theorem apply_sorting_witness :
    (apply_sorting [("price", "purchase_price")] "-created_at" "price" "desc" sampleRows).Perm
      sampleRows ∧
    (apply_sorting [("price", "purchase_price")] "-created_at" "price" "desc" sampleRows).Pairwise
      (fun a b => attrOf b "purchase_price" ≤ attrOf a "purchase_price") ∧
    (apply_sorting [("price", "purchase_price")] "-created_at" "unknown" "asc" sampleRows).Pairwise
      (orderRel "-created_at") :=
  ⟨((apply_sorting_spec [("price", "purchase_price")] "-created_at" "price" "desc"
      sampleRows).1 "purchase_price" (by decide) (by decide)).1,
   ((apply_sorting_spec [("price", "purchase_price")] "-created_at" "price" "desc"
      sampleRows).1 "purchase_price" (by decide) (by decide)).2.1 rfl,
   ((apply_sorting_spec [("price", "purchase_price")] "-created_at" "unknown" "asc"
      sampleRows).2 (by decide) (by decide)).2⟩

end Motofinai
